import Mathlib

/-!
Shallow embedding of `src/mcp_servers/multi_mcp.py` (class `MultiMCP`),
a multi-server capability router: it loads a service configuration,
launches subprocess-backed MCP services, aggregates the tools each live
service declares, and routes named tool invocations to the owning service
under a 20-second per-call timeout.

External collaborators (the stdio channel, the MCP `ClientSession`, the
filesystem and `shutil.which`) are modelled as oracles passed in as
parameters; the router logic itself is translated line by line from the
source.
-/

set_option autoImplicit false

namespace MultiMCP

/-- A tool descriptor as stored in `self.tools`: the MCP `Tool` object's
`name` and its `inputSchema`.  The schema is modelled as the ordered list
of its `properties` keys; `none` stands for a falsy schema or a schema
without a `properties` key (the only two facts `function_wrapper` reads
from it). -/
structure Tool where
  name : String
  inputSchema : Option (List String)
deriving DecidableEq

/-- Positional argument values (and remote text payloads) are strings. -/
abbrev Value := String

/-- The keyword-argument mapping built by `function_wrapper`, as an ordered
association list (Python dicts preserve insertion order). -/
abbrev ArgMap := List (String × Value)

/-- The result object of `session.call_tool`: `content` is the list of
text payloads of its content elements (empty when `result.content` is
falsy), `asString` is its `str(...)` rendering. -/
structure CallResult where
  content : List String
  asString : String
deriving DecidableEq

/-- The typed failures the router raises: `notConnected` and `notFound`
are the two `ValueError`s of `call_tool` / `route_tool_call`,
`toolTimeout` is the `TimeoutError` of `call_tool`, and `execError` wraps
any exception propagating out of the remote call itself. -/
inductive MCPError where
  | notConnected (server : String)
  | toolTimeout (server : String) (tool : String)
  | notFound (tool : String)
  | execError (msg : String)
deriving DecidableEq

/-- `str(e)` for each error, matching the message strings in the source
(`\x27` is the ASCII single-quote character used in those f-strings). -/
def quoted (s : String) : String := "\x27" ++ s ++ "\x27"

def errMsg : MCPError → String
  | .notConnected server => "Server " ++ quoted server ++ " not connected"
  | .toolTimeout server tool =>
      "Tool " ++ quoted tool ++ " on server " ++ quoted server ++
        " timed out after 20 seconds."
  | .notFound tool => "Tool " ++ quoted tool ++ " not found in any server"
  | .execError m => m

/-- Behaviour of one remote `session.call_tool` invocation, supplied by
the channel oracle: how long the remote side takes before completing, and
whether it completes with a result or raises.  `asyncio.wait_for` lets the
result through only when `duration` is within the deadline. -/
structure CallBehavior where
  duration : Nat
  outcome : Except String CallResult

/-- The oracle for the remote side: behaviour of `call_tool` per
(server, tool, arguments). -/
abbrev Remote := String → String → ArgMap → CallBehavior

/-- Router state: the fields of a `MultiMCP` object that the routing
logic reads and writes.  `openChannels` records the contexts entered into
`self.exit_stack` (by service name, in order); `sessions` is the key list
of the `self.sessions` dict; `tools` is the `self.tools` dict as an
ordered association list. -/
structure State where
  openChannels : List String
  sessions : List String
  tools : List (String × List Tool)
deriving DecidableEq

/-- The state right after `__init__`: empty exit stack, `self.sessions =
{}`, `self.tools = {}`. -/
def initState : State := ⟨[], [], []⟩

/-- `if command is missing: config.get falls back`.  A service's config
entry: `command` and `args` keys, each possibly absent. -/
structure ServerConfig where
  command : Option String
  args : Option (List String)
deriving DecidableEq

/-- The configuration source as `_load_config` observes it: the file is
absent; or it exists but opening/parsing raises; or it parses to JSON in
which the `mcpServers` key is present (`some`) or not (`none`). -/
inductive ConfigSource where
  | absent
  | unreadable
  | parsed (servers : Option (List (String × ServerConfig)))

/-- The hardcoded fallback returned by `_load_config` when the config
file does not exist. -/
def defaultConfigs : List (String × ServerConfig) :=
  [("browser", ⟨some "uv", some ["run", "mcp_servers/server_browser.py"]⟩),
   ("rag", ⟨some "uv", some ["run", "mcp_servers/server_rag.py"]⟩),
   ("sandbox", ⟨some "uv", some ["run", "mcp_servers/server_sandbox.py"]⟩)]

/-- `MultiMCP._load_config`: missing file falls back to the hardcoded
defaults; a file that cannot be read or parsed yields `{}`; otherwise
`data.get("mcpServers", {})`. -/
def load_config : ConfigSource → List (String × ServerConfig)
  | .absent => defaultConfigs
  | .unreadable => []
  | .parsed servers => servers.getD []

/-- Command resolution in `MultiMCP.start`: `cmd = config.get("command",
"uv")`, `args = config.get("args", [])`; if `cmd == "uv"` and `uv` is not
on the PATH (`shutil.which`, modelled by the `which` oracle), substitute
`sys.executable` (`pythonExe`) and drop a leading `"run"` argument. -/
def resolveLaunch (which : String → Bool) (pythonExe : String)
    (config : ServerConfig) : String × List String :=
  let cmd := config.command.getD "uv"
  let args := config.args.getD []
  if cmd == "uv" && !(which "uv") then
    let args2 :=
      if args.head? == some "run" then
        if 1 < args.length then args.drop 1 else []
      else args
    (pythonExe, args2)
  else (cmd, args)

/-- Per-service outcome of the startup sequence in `MultiMCP.start`, as
reported by the environment oracle: the channel could not be opened at
all; the channel opened but `session.initialize()` exceeded its 20 s
deadline; the channel opened but `session.list_tools()` raised; or
everything succeeded and the service declared `tools`. -/
inductive StartOutcome where
  | launchFailed (msg : String)
  | initTimeout
  | listToolsFailed (msg : String)
  | ok (tools : List Tool)

/-- The host environment `start` runs against: PATH lookups, the Python
executable, and the per-service startup outcome (as a function of the
service name and its resolved launch command). -/
structure Env where
  which : String → Bool
  pythonExe : String
  outcome : String → String × List String → StartOutcome

/-- One iteration of the `for name, config in self.server_configs.items()`
loop of `MultiMCP.start`: on success both `self.sessions[name]` and
`self.tools[name]` are written; on a handshake timeout or a
`list_tools` failure the entered contexts stay on the exit stack but
nothing is registered; on a launch failure nothing happens. -/
def startOne (env : Env) (st : State) (name : String) (config : ServerConfig) :
    State :=
  let params := resolveLaunch env.which env.pythonExe config
  match env.outcome name params with
  | .ok tools =>
      { st with openChannels := st.openChannels ++ [name],
                sessions := st.sessions ++ [name],
                tools := st.tools ++ [(name, tools)] }
  | .initTimeout => { st with openChannels := st.openChannels ++ [name] }
  | .listToolsFailed _ => { st with openChannels := st.openChannels ++ [name] }
  | .launchFailed _ => st

/-- `MultiMCP.start`: sequentially start every configured service,
isolating per-service failures. -/
def start (env : Env) (st : State) (configs : List (String × ServerConfig)) :
    State :=
  configs.foldl (fun acc p => startOne env acc p.1 p.2) st

/-- `MultiMCP.stop`: `await self.exit_stack.aclose()` closes every entered
context; `self.sessions` and `self.tools` are not touched. -/
def stop (st : State) : State := { st with openChannels := [] }

/-- `MultiMCP.get_all_tools`: extend an accumulator with each server's
tool list, in dict order. -/
def get_all_tools (st : State) : List Tool :=
  st.tools.foldl (fun acc p => acc ++ p.2) []

/-- `MultiMCP.call_tool`: raise `ValueError` if the server has no session;
otherwise run the remote call under `asyncio.wait_for(..., timeout=20.0)`,
turning a deadline overrun into a `TimeoutError` naming tool and server
and letting any other remote exception propagate. -/
def toolCallDeadline : Nat := 20

def call_tool (remote : Remote) (st : State) (server : String) (tool : String)
    (args : ArgMap) : Except MCPError CallResult :=
  if server ∈ st.sessions then
    let b := remote server tool args
    if b.duration ≤ toolCallDeadline then
      match b.outcome with
      | .ok r => .ok r
      | .error m => .error (.execError m)
    else .error (.toolTimeout server tool)
  else .error (.notConnected server)

/-- The scan of `MultiMCP.route_tool_call`: the first server in
`self.tools` dict order one of whose tools has the requested name. -/
def findOwner (tools : List (String × List Tool)) (toolName : String) :
    Option String :=
  match tools with
  | [] => none
  | (n, ts) :: rest =>
      if ts.any (fun t => t.name == toolName) then some n
      else findOwner rest toolName

/-- `MultiMCP.route_tool_call`: dispatch to the first server declaring the
tool, else raise `ValueError`. -/
def route_tool_call (remote : Remote) (st : State) (toolName : String)
    (args : ArgMap) : Except MCPError CallResult :=
  match findOwner st.tools toolName with
  | some owner => call_tool remote st owner toolName args
  | none => .error (.notFound toolName)

/-- The tool-definition scan at the top of `MultiMCP.function_wrapper`:
first matching tool across `self.tools.values()` in order. -/
def findTool (tools : List (String × List Tool)) (toolName : String) :
    Option Tool :=
  (tools.flatMap Prod.snd).find? (fun t => t.name == toolName)

/-- The argument-zipping loop of `function_wrapper`:
`for i, arg in enumerate(args): if i < len(keys): arguments[keys[i]] = arg`,
translated with the running index `i` explicit. -/
def mapPositionalAux (keys : List String) : Nat → List Value → ArgMap
  | _, [] => []
  | i, v :: vs =>
      if h : i < keys.length then
        (keys.get ⟨i, h⟩, v) :: mapPositionalAux keys (i + 1) vs
      else mapPositionalAux keys (i + 1) vs

/-- The whole argument-adaptation block of `function_wrapper`: `arguments`
stays `{}` unless the schema is truthy and has a `properties` key. -/
def adaptArgs : Option (List String) → List Value → ArgMap
  | none, _ => []
  | some keys, values => mapPositionalAux keys 0 values

/-- Result unpacking in `function_wrapper`: the first content element's
text if `result.content` is non-empty, else `str(result)`. -/
def unpackResult (r : CallResult) : String :=
  match r.content with
  | t :: _ => t
  | [] => r.asString

/-- `MultiMCP.function_wrapper`: positional-convenience invocation that
never raises — unknown tools and any exception from the routed call are
rendered as error strings. -/
def function_wrapper (remote : Remote) (st : State) (toolName : String)
    (values : List Value) : String :=
  match findTool st.tools toolName with
  | none => "Error: Tool " ++ toolName ++ " not found"
  | some t =>
      match route_tool_call remote st toolName (adaptArgs t.inputSchema values) with
      | .ok r => unpackResult r
      | .error e => "Error executing " ++ toolName ++ ": " ++ errMsg e

/-- `MultiMCP.get_tools_from_servers`: flatten the tool lists of the
requested servers, silently skipping unknown names. -/
def get_tools_from_servers (st : State) (serverNames : List String) :
    List Tool :=
  serverNames.foldl
    (fun acc name =>
      match st.tools.find? (fun p => p.1 == name) with
      | some p => acc ++ p.2
      | none => acc) []

end MultiMCP

namespace MultiMCP

/-! ### Helper lemmas -/

theorem mapPositionalAux_eq_zip (keys : List String) (values : List Value)
    (i : Nat) : mapPositionalAux keys i values = List.zip (keys.drop i) values := by
  induction values generalizing i with
  | nil => simp [mapPositionalAux]
  | cons v vs ih =>
    by_cases h : i < keys.length
    · simp only [mapPositionalAux, dif_pos h, ih (i + 1), List.get_eq_getElem]
      rw [List.drop_eq_getElem_cons h, List.zip_cons_cons]
    · simp only [mapPositionalAux, dif_neg h, ih (i + 1)]
      rw [List.drop_eq_nil_of_le (Nat.le_of_not_lt h),
        List.drop_eq_nil_of_le (Nat.le_succ_of_le (Nat.le_of_not_lt h))]
      simp

theorem get_all_tools_foldl (ts : List (String × List Tool))
    (acc : List Tool) :
    ts.foldl (fun acc p => acc ++ p.2) acc = acc ++ (ts.map Prod.snd).flatten := by
  induction ts generalizing acc with
  | nil => simp
  | cons p rest ih => simp [ih, List.append_assoc]

end MultiMCP

namespace MultiMCP

/-! ### Claim theorems -/

/-- C2: the positional-to-keyword adapter zips positional values to the
schema's parameter names pairwise in declared order: with parameters
`[p1, p2]`, values `[a, b, c]` map to `[(p1, a), (p2, b)]` (`c` dropped)
and values `[a]` map to `[(p1, a)]` (`p2` absent); a schema declaring no
parameters, or carrying no `properties` key at all, yields the empty
mapping for every value list.  In general the mapping is the pairwise zip
of the declared names with the values. -/
theorem adaptArgs_spec (p1 p2 : String) (a b c : Value) (values : List Value) :
    adaptArgs (some [p1, p2]) [a, b, c] = [(p1, a), (p2, b)]
  ∧ adaptArgs (some [p1, p2]) [a] = [(p1, a)]
  ∧ adaptArgs (some []) values = []
  ∧ adaptArgs none values = []
  ∧ ∀ keys : List String, adaptArgs (some keys) values = List.zip keys values := by
  refine ⟨rfl, rfl, ?_, rfl, fun keys => ?_⟩
  · show mapPositionalAux [] 0 values = []
    rw [mapPositionalAux_eq_zip]
    simp
  · show mapPositionalAux keys 0 values = List.zip keys values
    rw [mapPositionalAux_eq_zip]
    rfl

/-- C7: `get_all_tools` returns exactly the concatenation of each live
service's declared descriptor list, in session-insertion order then
per-session declaration order (the flattening of the registry, with no
deduplication: its length is the sum of the per-service lengths), and a
service that declared zero tools contributes no elements. -/
theorem get_all_tools_spec (st : State) :
    get_all_tools st = (st.tools.map Prod.snd).flatten
  ∧ (get_all_tools st).length = ((st.tools.map Prod.snd).map List.length).sum
  ∧ ∀ (oc sess : List String) (pre post : List (String × List Tool)) (n : String),
      get_all_tools ⟨oc, sess, pre ++ (n, []) :: post⟩ =
        get_all_tools ⟨oc, sess, pre ++ post⟩ := by
  refine ⟨?_, ?_, ?_⟩
  · simpa using get_all_tools_foldl st.tools []
  · rw [show get_all_tools st = (st.tools.map Prod.snd).flatten from by
      simpa using get_all_tools_foldl st.tools []]
    simp [List.length_flatten, Function.comp]
  · intro oc sess pre post n
    show (pre ++ (n, []) :: post).foldl (fun acc p => acc ++ p.2) [] =
      (pre ++ post).foldl (fun acc p => acc ++ p.2) []
    rw [get_all_tools_foldl, get_all_tools_foldl]
    simp

/-- C8: configuration-source failures are recoverable: an absent config
file yields the hardcoded default service set (browser, rag, sandbox),
while a file that exists but cannot be read or parsed yields the empty
service set; a parsed file yields its `mcpServers` entry or the empty set
when that key is missing. -/
theorem load_config_spec :
    load_config .absent = defaultConfigs
  ∧ defaultConfigs.map Prod.fst = ["browser", "rag", "sandbox"]
  ∧ load_config .unreadable = []
  ∧ ∀ servers, load_config (.parsed servers) = servers.getD [] :=
  ⟨rfl, rfl, rfl, fun _ => rfl⟩

end MultiMCP

namespace MultiMCP

/-! ### More helper lemmas -/

theorem call_tool_ne_notFound (remote : Remote) (st : State)
    (server tool t : String) (args : ArgMap) :
    call_tool remote st server tool args ≠ .error (.notFound t) := by
  unfold call_tool
  by_cases hmem : server ∈ st.sessions
  · simp only [if_pos hmem]
    by_cases hd : (remote server tool args).duration ≤ toolCallDeadline
    · simp only [if_pos hd]
      cases hout : (remote server tool args).outcome <;> simp
    · simp [if_neg hd]
  · simp [if_neg hmem]

theorem findOwner_none_iff (tools : List (String × List Tool))
    (toolName : String) :
    findOwner tools toolName = none ↔
      ∀ p ∈ tools, ∀ t ∈ p.2, t.name ≠ toolName := by
  induction tools with
  | nil => simp [findOwner]
  | cons p rest ih =>
    obtain ⟨n, ts⟩ := p
    by_cases h : ts.any (fun t => t.name == toolName)
    · simp only [findOwner, if_pos h]
      constructor
      · intro hc; cases hc
      · intro hall
        rcases List.any_eq_true.mp h with ⟨t, ht, hbeq⟩
        exact absurd (by simpa using hbeq)
          (hall (n, ts) (List.mem_cons_self _ _) t ht)
    · simp only [findOwner, if_neg h, ih]
      constructor
      · intro hrest q hq t htq
        rcases List.mem_cons.mp hq with hq1 | hq2
        · subst hq1
          intro hname
          exact h (List.any_eq_true.mpr ⟨t, htq, by simp [hname]⟩)
        · exact hrest q hq2 t htq
      · intro hall q hq t ht
        exact hall q (List.mem_cons_of_mem _ hq) t ht

theorem findOwner_skip (pre rest : List (String × List Tool))
    (toolName : String)
    (hpre : ∀ p ∈ pre, p.2.any (fun t => t.name == toolName) = false) :
    findOwner (pre ++ rest) toolName = findOwner rest toolName := by
  induction pre with
  | nil => rfl
  | cons p ps ih =>
    obtain ⟨n, ts⟩ := p
    simp only [List.cons_append, findOwner]
    rw [if_neg]
    · exact ih (fun q hq => hpre q (List.mem_cons_of_mem _ hq))
    · simp [hpre (n, ts) (List.mem_cons_self _ _)]

end MultiMCP

namespace MultiMCP

/-- Concrete fixtures used by witnesses. -/
def sampleTool : Tool := ⟨"search", some ["query", "limit"]⟩

def sampleState : State := ⟨["rag"], ["rag"], [("rag", [sampleTool])]⟩

/-- A remote whose every call takes 25 time units, past the 20-unit
deadline. -/
def slowRemote : Remote := fun _ _ _ => ⟨25, .ok ⟨["hit"], "result"⟩⟩

def toolX : Tool := ⟨"X", some ["a"]⟩

/-- C3: `call_tool` fails with the not-connected `ValueError` whenever the
named server has no live session; otherwise it runs the call under the
20-time-unit deadline, failing with a `TimeoutError` that names both the
server and the tool when the deadline elapses, and returning the raw call
result unchanged when the call completes in time. -/
theorem call_tool_spec (remote : Remote) (st : State) (server tool : String)
    (args : ArgMap) :
    (server ∉ st.sessions →
        call_tool remote st server tool args = .error (.notConnected server))
  ∧ (server ∈ st.sessions →
      toolCallDeadline < (remote server tool args).duration →
        call_tool remote st server tool args =
          .error (.toolTimeout server tool))
  ∧ (server ∈ st.sessions →
      (remote server tool args).duration ≤ toolCallDeadline →
        ∀ r, (remote server tool args).outcome = .ok r →
          call_tool remote st server tool args = .ok r) := by
  refine ⟨?_, ?_, ?_⟩
  · intro hnot
    simp [call_tool, hnot]
  · intro hmem hdur
    simp [call_tool, hmem, Nat.not_le.mpr hdur]
  · intro hmem hdur r hok
    simp [call_tool, hmem, hdur, hok]

/-- C3 witness: on a one-server state, calling a tool on an unconnected
server fails not-connected, and a 25-unit remote call on the live server
times out. -/
theorem call_tool_spec_witness :
    call_tool slowRemote sampleState "browser" "search" [] =
      .error (.notConnected "browser")
  ∧ call_tool slowRemote sampleState "rag" "search" [] =
      .error (.toolTimeout "rag" "search") :=
  ⟨(call_tool_spec slowRemote sampleState "browser" "search" []).1 (by decide),
   (call_tool_spec slowRemote sampleState "rag" "search" []).2.1 (by decide)
     (by decide)⟩

/-- C6: `route_tool_call` fails with the not-found `ValueError` exactly
when no live service's tool list contains the requested name; and whenever
the registration-order scan resolves an owner, the call is delegated to
`call_tool` for that owner with the same tool name and arguments. -/
theorem route_tool_call_spec (remote : Remote) (st : State)
    (toolName : String) (args : ArgMap) :
    (route_tool_call remote st toolName args = .error (.notFound toolName)
       ↔ ∀ p ∈ st.tools, ∀ t ∈ p.2, t.name ≠ toolName)
  ∧ (∀ owner, findOwner st.tools toolName = some owner →
        route_tool_call remote st toolName args =
          call_tool remote st owner toolName args) := by
  constructor
  · constructor
    · intro heq
      rw [← findOwner_none_iff]
      cases hfo : findOwner st.tools toolName with
      | none => rfl
      | some owner =>
        exfalso
        have hrt : route_tool_call remote st toolName args =
            call_tool remote st owner toolName args := by
          simp [route_tool_call, hfo]
        exact call_tool_ne_notFound remote st owner toolName toolName args
          (hrt.symm.trans heq)
    · intro hall
      have hfo : findOwner st.tools toolName = none :=
        (findOwner_none_iff _ _).mpr hall
      simp [route_tool_call, hfo]
  · intro owner hfo
    simp [route_tool_call, hfo]

/-- C6 witness: on the one-server state, the name `search` resolves to
`rag` and the call is delegated to `call_tool`; an unknown name fails
not-found. -/
theorem route_tool_call_spec_witness :
    route_tool_call slowRemote sampleState "search" [] =
      call_tool slowRemote sampleState "rag" "search" []
  ∧ route_tool_call slowRemote sampleState "missing" [] =
      .error (.notFound "missing") :=
  ⟨(route_tool_call_spec slowRemote sampleState "search" []).2 "rag"
     (by decide),
   (route_tool_call_spec slowRemote sampleState "missing" []).1.mpr
     (by decide)⟩

/-- C1: first-match-wins name-collision policy.  If the registry is
`pre ++ (owner, ts) :: post`, no service in `pre` declares the name, the
`owner` service does, and some later service in `post` also declares it
(a collision), then the scan resolves the name to `owner` — the
first-registered declarer — and `route_tool_call` dispatches to it.
Resolution is a pure function of the registry state, so repeated calls on
the same state resolve to the same owner. -/
theorem route_first_match_wins (remote : Remote) (oc sess : List String)
    (pre post : List (String × List Tool)) (owner : String) (ts : List Tool)
    (toolName : String) (args : ArgMap)
    (hpre : ∀ p ∈ pre, p.2.any (fun t => t.name == toolName) = false)
    (howner : ts.any (fun t => t.name == toolName) = true)
    (_hshadowed : ∃ q ∈ post, q.2.any (fun t => t.name == toolName) = true) :
    findOwner (pre ++ (owner, ts) :: post) toolName = some owner
    ∧ route_tool_call remote ⟨oc, sess, pre ++ (owner, ts) :: post⟩
        toolName args =
        call_tool remote ⟨oc, sess, pre ++ (owner, ts) :: post⟩
          owner toolName args := by
  have h1 : findOwner (pre ++ (owner, ts) :: post) toolName = some owner := by
    rw [findOwner_skip pre _ toolName hpre]
    simp only [findOwner, if_pos howner]
  exact ⟨h1, by simp [route_tool_call, h1]⟩

/-- C1 witness: two services both declaring tool `X`; the scan resolves to
the first-registered one. -/
theorem route_first_match_wins_witness :
    findOwner ([] ++ ("s1", [toolX]) :: [("s2", [toolX])]) "X" = some "s1"
    ∧ route_tool_call slowRemote
        ⟨[], ["s1", "s2"], [] ++ ("s1", [toolX]) :: [("s2", [toolX])]⟩
        "X" [] =
        call_tool slowRemote
          ⟨[], ["s1", "s2"], [] ++ ("s1", [toolX]) :: [("s2", [toolX])]⟩
          "s1" "X" [] :=
  route_first_match_wins slowRemote [] ["s1", "s2"] [] [("s2", [toolX])]
    "s1" [toolX] "X" [] (by decide) (by decide)
    ⟨("s2", [toolX]), by decide, by decide⟩

end MultiMCP

namespace MultiMCP

theorem call_tool_mem_ne_notConnected (remote : Remote) (st : State)
    (server tool s2 : String) (args : ArgMap) (hmem : server ∈ st.sessions) :
    call_tool remote st server tool args ≠ .error (.notConnected s2) := by
  unfold call_tool
  simp only [if_pos hmem]
  by_cases hd : (remote server tool args).duration ≤ toolCallDeadline
  · simp only [if_pos hd]
    cases hout : (remote server tool args).outcome <;> simp
  · simp [if_neg hd]

theorem findOwner_mem (tools : List (String × List Tool))
    (toolName owner : String) (h : findOwner tools toolName = some owner) :
    owner ∈ tools.map Prod.fst := by
  induction tools with
  | nil => cases h
  | cons p rest ih =>
    obtain ⟨n, ts⟩ := p
    by_cases hc : ts.any (fun t => t.name == toolName)
    · simp only [findOwner, if_pos hc, Option.some.injEq] at h
      subst h
      simp
    · simp only [findOwner, if_neg hc] at h
      simp [ih h]

/-- C4: `function_wrapper` never propagates a failure to its caller.  An
unknown tool name yields the not-found error string (which contains the
tool name); an error raised anywhere during the routed call is rendered
as a descriptive error string; a successful call is unpacked to its text
payload.  These branches cover the whole function, whose result type is
`String`, not an exception-carrying type. -/
theorem function_wrapper_spec (remote : Remote) (st : State)
    (toolName : String) (values : List Value) :
    (findTool st.tools toolName = none →
        function_wrapper remote st toolName values =
          "Error: Tool " ++ toolName ++ " not found"
        ∧ ∃ pre post, function_wrapper remote st toolName values =
            pre ++ toolName ++ post)
  ∧ (∀ t, findTool st.tools toolName = some t →
      ∀ e, route_tool_call remote st toolName
            (adaptArgs t.inputSchema values) = .error e →
        function_wrapper remote st toolName values =
          "Error executing " ++ toolName ++ ": " ++ errMsg e)
  ∧ (∀ t r, findTool st.tools toolName = some t →
      route_tool_call remote st toolName
          (adaptArgs t.inputSchema values) = .ok r →
        function_wrapper remote st toolName values = unpackResult r) := by
  refine ⟨?_, ?_, ?_⟩
  · intro hnone
    exact ⟨by simp [function_wrapper, hnone],
      "Error: Tool ", " not found", by simp [function_wrapper, hnone]⟩
  · intro t ht e he
    simp [function_wrapper, ht, he]
  · intro t r ht hr
    simp [function_wrapper, ht, hr]

/-- C4 witness: an unknown tool yields the not-found string; a timed-out
routed call yields the descriptive error string, not an exception. -/
theorem function_wrapper_spec_witness :
    function_wrapper slowRemote sampleState "nope" [] =
      "Error: Tool " ++ "nope" ++ " not found"
  ∧ function_wrapper slowRemote sampleState "search" ["q"] =
      "Error executing " ++ "search" ++ ": " ++
        errMsg (.toolTimeout "rag" "search") :=
  ⟨((function_wrapper_spec slowRemote sampleState "nope" []).1 (by decide)).1,
   (function_wrapper_spec slowRemote sampleState "search" ["q"]).2.1
     sampleTool (by decide) (.toolTimeout "rag" "search") rfl⟩

/-- C5 (amended): `stop` is idempotent — running it twice, or running it
on the freshly constructed state where `start` never ran, is harmless —
and it closes every channel on the exit stack; but it does NOT clear the
registry: `self.sessions` and `self.tools` are left exactly as they
were. -/
theorem stop_spec (st : State) :
    stop (stop st) = stop st
  ∧ stop initState = initState
  ∧ (stop st).openChannels = []
  ∧ (stop st).sessions = st.sessions
  ∧ (stop st).tools = st.tools :=
  ⟨rfl, rfl, rfl, rfl, rfl⟩

/-- C5 counterexample: on a state with one live service `rag` owning tool
`search`, after `stop` the sessions map is still non-empty and `search`
still resolves to `rag` (and routes to a real dispatch, not a not-found
error) — refuting the claim that teardown removes stale tool-index
entries and leaves no tool name resolvable. -/
theorem stop_leaves_registry_resolvable :
    (stop sampleState).sessions = ["rag"]
  ∧ findOwner (stop sampleState).tools "search" = some "rag"
  ∧ route_tool_call slowRemote (stop sampleState) "search" [] =
      .error (.toolTimeout "rag" "search") :=
  ⟨rfl, rfl, rfl⟩

/-- C9 (amended): the launch-command fallback applies exactly to the
command `uv` (declared, or defaulted when the `command` key is absent):
when `uv` is not on the PATH the running Python executable is substituted
and one leading `run` argument is dropped; any other declared command is
passed through unchanged even when it is unavailable on the host, and
when `uv` is available every config is passed through unchanged. -/
theorem resolveLaunch_spec (which : String → Bool) (pythonExe : String)
    (config : ServerConfig) :
    (config.command.getD "uv" = "uv" → which "uv" = false →
       ∀ rest, config.args.getD [] = "run" :: rest →
         resolveLaunch which pythonExe config = (pythonExe, rest))
  ∧ (config.command.getD "uv" = "uv" → which "uv" = false →
       (config.args.getD []).head? ≠ some "run" →
         resolveLaunch which pythonExe config =
           (pythonExe, config.args.getD []))
  ∧ (config.command.getD "uv" ≠ "uv" →
       resolveLaunch which pythonExe config =
         (config.command.getD "uv", config.args.getD []))
  ∧ (which "uv" = true →
       resolveLaunch which pythonExe config =
         (config.command.getD "uv", config.args.getD [])) := by
  refine ⟨?_, ?_, ?_, ?_⟩
  · intro hcmd huv rest hargs
    cases rest with
    | nil => simp [resolveLaunch, hcmd, huv, hargs]
    | cons a l => simp [resolveLaunch, hcmd, huv, hargs]
  · intro hcmd huv hhead
    simp [resolveLaunch, hcmd, huv, beq_eq_false_iff_ne.mpr hhead]
  · intro hcmd
    simp [resolveLaunch, beq_eq_false_iff_ne.mpr hcmd]
  · intro huv
    simp [resolveLaunch, huv]

/-- C9 amended-claim witness: `uv` missing from the PATH, a default-style
config is rewritten to the Python executable with the `run` argument
dropped. -/
theorem resolveLaunch_spec_witness :
    resolveLaunch (fun _ => false) "python3"
      ⟨some "uv", some ["run", "mcp_servers/server_rag.py"]⟩ =
      ("python3", ["mcp_servers/server_rag.py"]) :=
  (resolveLaunch_spec (fun _ => false) "python3"
      ⟨some "uv", some ["run", "mcp_servers/server_rag.py"]⟩).1
    rfl rfl ["mcp_servers/server_rag.py"] rfl

/-- C9 counterexample: with nothing available on the PATH, a service
declaring launch command `node` is NOT rewritten — the substitution is
keyed on the literal command `uv`, not on the declared command being
unavailable, so the claim fails for this config. -/
theorem resolveLaunch_no_general_fallback :
    (fun (_ : String) => false) "node" = false
  ∧ resolveLaunch (fun _ => false) "python3"
      ⟨some "node", some ["run", "server.py"]⟩ =
      ("node", ["run", "server.py"])
  ∧ ("node" : String) ≠ "python3" :=
  ⟨rfl, rfl, by decide⟩

/-- The implicit registry invariant of C10: the key list of
`self.sessions` coincides with the key list of `self.tools`. -/
def keysAligned (st : State) : Prop :=
  st.sessions = st.tools.map Prod.fst

/-- C10: the session map and the tool map always have the same key set:
it holds after construction, is preserved by `start` (both maps are
written together on per-service success and untouched on failure) and by
`stop` (which removes from neither); consequently, whenever
`route_tool_call` resolves a tool name to an owning service, the
not-connected branch of `call_tool` cannot fire for that service. -/
theorem registry_keys_aligned (env : Env) (st : State)
    (configs : List (String × ServerConfig)) (remote : Remote)
    (toolName : String) (args : ArgMap) :
    keysAligned initState
  ∧ (keysAligned st → keysAligned (start env st configs))
  ∧ (keysAligned st → keysAligned (stop st))
  ∧ (keysAligned st →
      ∀ owner, findOwner st.tools toolName = some owner →
        route_tool_call remote st toolName args ≠
          .error (.notConnected owner)) := by
  refine ⟨rfl, ?_, fun h => h, ?_⟩
  · have hstart : ∀ (cfgs : List (String × ServerConfig)) (s : State),
        keysAligned s → keysAligned (start env s cfgs) := by
      intro cfgs
      induction cfgs with
      | nil => intro s hs; exact hs
      | cons c rest ih =>
        intro s hs
        show keysAligned (start env (startOne env s c.1 c.2) rest)
        apply ih
        unfold keysAligned at hs ⊢
        unfold startOne
        cases hout : env.outcome c.1 (resolveLaunch env.which env.pythonExe c.2) <;>
          simp [hout, hs]
    exact hstart configs st
  · intro hal owner hfo
    have hmem : owner ∈ st.sessions := by
      rw [hal]
      exact findOwner_mem st.tools toolName owner hfo
    simp only [route_tool_call, hfo]
    exact call_tool_mem_ne_notConnected remote st owner toolName owner args hmem

/-- C10 witness: on the aligned one-service state, the resolved owner of
`search` can never trigger the not-connected branch. -/
theorem registry_keys_aligned_witness :
    route_tool_call slowRemote sampleState "search" [] ≠
      .error (.notConnected "rag") :=
  (registry_keys_aligned ⟨fun _ => false, "python3", fun _ _ => .ok []⟩
      sampleState [] slowRemote "search" []).2.2.2
    rfl "rag" rfl

end MultiMCP
